import Mathlib

/-!
Verification development for the Barka-AV dashboard's data-ingestion pipeline
(src/app.py).  The pipeline consists of a table parser
(parse_whitespace_table_from_text), a fetcher with local fallback
(fetch_f1_data, fetch_f4_data) and an inline min-max normalizer.  Values are
embedded as rationals; a table cell is either a number, a non-numeric text, or
missing (NaN).
-/

attribute [local semireducible] Rat.add Rat.sub Rat.mul Rat.inv Rat.ofScientific

/-- A cell of a parsed table: a numeric value, a non-numeric text, or a
missing value (pandas NaN).  Numeric-looking text is already turned into a
number by the parser, so the str constructor stands for text that does not
coerce to a number. -/
inductive Cell where
  | num (q : ℚ)
  | str (s : String)
  | na
deriving DecidableEq, Repr

/-- Extract the numeric value of a cell, if any. -/
def Cell.num? : Cell → Option ℚ
  | Cell.num q => some q
  | _ => none

/-- Embedding of pandas to_numeric with errors equal to coerce: numbers stay,
non-numeric text and missing values become NaN. -/
def Cell.toNumeric : Cell → Cell
  | Cell.num q => Cell.num q
  | _ => Cell.na

/-- A pandas DataFrame: named columns and rows of cells (row-major). -/
structure Frame where
  cols : List String
  rows : List (List Cell)
deriving DecidableEq, Repr

/-- A DataFrame is empty when it has no rows or no columns (pandas df.empty). -/
def Frame.isEmpty (f : Frame) : Bool := f.rows.isEmpty || f.cols.isEmpty

/-! ### Text splitting and number parsing (embedding of str.splitlines and the
pandas CSV tokenizer, restricted to what app.py exercises) -/

/-- Split a character list at every character satisfying p (separators are
dropped; empty segments are kept). -/
def splitOnPred (p : Char → Bool) : List Char → List (List Char)
  | [] => [[]]
  | c :: t =>
    let r := splitOnPred p t
    if p c then [] :: r
    else
      match r with
      | [] => [[c]]
      | h :: t2 => (c :: h) :: t2

/-- Split at a given character. -/
def splitOnChar (c : Char) (l : List Char) : List (List Char) :=
  splitOnPred (fun x => x == c) l

/-- Python str.splitlines: split at newlines, with no trailing empty line. -/
def pySplitlines (s : String) : List String :=
  let ls := (splitOnChar '\n' s.toList).map (fun l => String.mk l)
  if ls.getLast? = some "" then ls.dropLast else ls

/-- Join lines back with newlines (inverse of line splitting). -/
def joinLines : List String → String
  | [] => ""
  | [l] => l
  | l :: ls => l ++ "\n" ++ joinLines ls

/-- Does pat occur as a substring (Python operator in on strings)? -/
def hasSubAux (pat : List Char) : List Char → Bool
  | [] => pat.isEmpty
  | c :: t => pat.isPrefixOf (c :: t) || hasSubAux pat t

/-- Does pat occur as a substring of s? -/
def hasSub (pat s : String) : Bool := hasSubAux pat.toList s.toList

/-- Value of a decimal digit character. -/
def digitVal (c : Char) : Nat := c.toNat - 48

/-- Accumulate the value of a decimal digit string; none on a non-digit. -/
def digitsValAux : Nat → List Char → Option Nat
  | acc, [] => some acc
  | acc, c :: t => if c.isDigit then digitsValAux (10 * acc + digitVal c) t else none

/-- Parse a non-empty all-digit string as a natural number. -/
def parseNat? (cs : List Char) : Option Nat :=
  if cs.isEmpty then none else digitsValAux 0 cs

/-- Parse an optionally signed decimal numeral (digits, or digits.digits) as a
rational; none when the text is not such a numeral. -/
def parseRat? (cs : List Char) : Option ℚ :=
  let sgn : Bool := match cs with | '-' :: _ => true | _ => false
  let body : List Char := match cs with | '-' :: t => t | _ => cs
  match splitOnChar '.' body with
  | [w] => (parseNat? w).map (fun n => if sgn then -(n : ℚ) else (n : ℚ))
  | [w, fr] =>
    match parseNat? w, parseNat? fr with
    | some n, some fpart =>
      let q : ℚ := (n : ℚ) + (fpart : ℚ) / ((10 : ℚ) ^ fr.length)
      some (if sgn then -q else q)
    | _, _ => none
  | _ => none

/-- Turn one CSV field into a cell: empty fields are missing, numerals become
numbers, everything else is kept as text. -/
def parseCell (s : String) : Cell :=
  if s = "" then Cell.na
  else
    match parseRat? s.toList with
    | some q => Cell.num q
    | none => Cell.str s

/-- Tokenize a line at runs of whitespace (pandas delim_whitespace). -/
def wsTokens (s : String) : List String :=
  ((splitOnPred (fun c => c == ' ' || c == '\t') s.toList).filter
      (fun l => !l.isEmpty)).map (fun l => String.mk l)

/-- Split a line at commas, keeping empty fields. -/
def commaSplit (s : String) : List String :=
  (splitOnChar ',' s.toList).map (fun l => String.mk l)

/-- Pad or cut a row to the given width, filling with missing cells (pandas
rows are always rectangular). -/
def padRow (n : Nat) (r : List Cell) : List Cell :=
  r.take n ++ List.replicate (n - r.length) Cell.na

/-- Embedding of pd.read_csv with delim_whitespace set: first non-blank line
is the header, later lines are data rows. -/
def readCsvWhitespace (text : String) : Frame :=
  match ((pySplitlines text).map wsTokens).filter (fun r => !r.isEmpty) with
  | [] => ⟨[], []⟩
  | hdr :: rest => ⟨hdr, rest.map (fun r => padRow hdr.length (r.map parseCell))⟩

/-- Embedding of plain pd.read_csv: comma-separated, first non-blank line is
the header. -/
def readCsvComma (text : String) : Frame :=
  match (pySplitlines text).filter (fun l => !(l == "")) with
  | [] => ⟨[], []⟩
  | hdr :: rest =>
    let cols := commaSplit hdr
    ⟨cols, rest.map (fun l => padRow cols.length ((commaSplit l).map parseCell))⟩

/-! ### Header detection (app.py lines 15-43) -/

/-- Index of the first list element satisfying p. -/
def firstIdx? (p : String → Bool) : List String → Option Nat
  | [] => none
  | x :: t => if p x then some 0 else (firstIdx? p t).map (· + 1)

/-- The GISTEMP header test of the first scan: the line mentions Year and one
of Jan or Dec (app.py line 25). -/
def isHeader1 (line : String) : Bool :=
  hasSub "Year" line && (hasSub "Jan" line || hasSub "Dec" line)

/-- The fallback header test: the line mentions Year (app.py line 31). -/
def isHeader2 (line : String) : Bool := hasSub "Year" line

/-- Locate the header row: scan the first 20 lines for a line containing Year
and Jan or Dec, then the first 40 lines for a line containing Year. -/
def headerFind (lines : List String) : Option Nat :=
  match firstIdx? isHeader1 (lines.take 20) with
  | some i => some i
  | none => firstIdx? isHeader2 (lines.take 40)

/-- Embedding of parse_whitespace_table_from_text (app.py lines 15-43): find
the header line, drop the preamble before it and parse whitespace-delimited;
when no header line is found, fall back to a plain comma-separated parse. -/
def parse_whitespace_table_from_text (text : String) : Frame :=
  match headerFind (pySplitlines text) with
  | none => readCsvComma text
  | some i => readCsvWhitespace (joinLines ((pySplitlines text).drop i))

/-! ### Frame operations (embedding of the pandas operations app.py uses) -/

/-- Position of the named column, if present. -/
def Frame.colIdx (f : Frame) (c : String) : Option Nat :=
  firstIdx? (fun s => s == c) f.cols

/-- Is the named column present (Python: c in df.columns)? -/
def containsCol (cols : List String) (c : String) : Bool :=
  (firstIdx? (fun s => s == c) cols).isSome

/-- The cells of the named column, top to bottom ([] when absent). -/
def Frame.colCells (f : Frame) (c : String) : List Cell :=
  match f.colIdx c with
  | some i => f.rows.map (fun r => r.getD i Cell.na)
  | none => []

/-- The numeric values of the named column, in row order. -/
def Frame.numsOf (f : Frame) (c : String) : List ℚ :=
  (f.colCells c).filterMap Cell.num?

/-- Overwrite the cell at column position j of every row with a function of
the row (rows are padded to the frame's width first). -/
def Frame.overwriteAt (f : Frame) (j : Nat) (g : List Cell → Cell) : Frame :=
  ⟨f.cols, f.rows.map (fun r => (padRow f.cols.length r).set j (g r))⟩

/-- Apply a cell function to one column in place (identity when the column is
absent); embedding of df[c] = fn(df[c]). -/
def Frame.mapCol (f : Frame) (c : String) (g : Cell → Cell) : Frame :=
  match f.colIdx c with
  | none => f
  | some j => f.overwriteAt j (fun r => g (r.getD j Cell.na))

/-- Assign a full column (df[c] = vals): replace it when present, append it
at the right end otherwise. -/
def Frame.setCol (f : Frame) (c : String) (vals : List Cell) : Frame :=
  match f.colIdx c with
  | some j => ⟨f.cols, f.rows.zipWith (fun r v => (padRow f.cols.length r).set j v) vals⟩
  | none => ⟨f.cols ++ [c], f.rows.zipWith (fun r v => padRow f.cols.length r ++ [v]) vals⟩

/-- Rename every column called old to new (df.rename). -/
def Frame.renameCol (f : Frame) (old new : String) : Frame :=
  ⟨f.cols.map (fun s => if s == old then new else s), f.rows⟩

/-- Drop every row whose cell in the named column is missing
(df.dropna with subset c); identity when the column is absent (the caller
models the pandas KeyError separately). -/
def Frame.dropnaOn (f : Frame) (c : String) : Frame :=
  match f.colIdx c with
  | some i => ⟨f.cols, f.rows.filter (fun r => !(r.getD i Cell.na == Cell.na))⟩
  | none => f

/-! ### The F1 pipeline (fetch_f1_data, app.py lines 48-127) -/

/-- Result of one fetch-and-normalize call: a returned DataFrame, a returned
None (after an st.error diagnostic), or an uncaught exception escaping the
function. -/
inductive PipeResult where
  | ok (f : Frame)
  | errNone
  | raised (msg : String)
deriving DecidableEq, Repr

/-- Did the call return a DataFrame? -/
def resultOk : PipeResult → Bool
  | PipeResult.ok _ => true
  | _ => false

/-- Numeric values of a column of the returned DataFrame ([] when the call did
not return one). -/
def resultNums (p : PipeResult) (c : String) : List ℚ :=
  match p with
  | PipeResult.ok f => f.numsOf c
  | _ => []

/-- The twelve month columns of the GISTEMP table (app.py line 93). -/
def monthsList : List String :=
  ["Jan", "Feb", "Mar", "Apr", "May", "Jun", "Jul", "Aug", "Sep", "Oct", "Nov", "Dec"]

/-- Alternative annual-value column names (app.py line 103). -/
def altCols : List String := ["J-D", "J_D", "J_D.1", "J_D.0", "Annual", "Yearly"]

/-- Rename Year to year when present (app.py lines 90-91). -/
def renameYearStep (f : Frame) : Frame :=
  if containsCol f.cols "Year" then f.renameCol "Year" "year" else f

/-- Coerce every present month column to numeric (app.py lines 94-96). -/
def coerceMonths (f : Frame) : Frame :=
  monthsList.foldl (fun g m => g.mapCol m Cell.toNumeric) f

/-- Row-wise mean over the populated month cells of a row, missing when no
month cell is populated (pandas df[months].mean with axis 1). -/
def rowMonthMean (f : Frame) (r : List Cell) : Cell :=
  let vs : List ℚ := monthsList.filterMap (fun m =>
    match f.colIdx m with
    | some i => Cell.num? (r.getD i Cell.na)
    | none => none)
  if vs.isEmpty then Cell.na else Cell.num (vs.sum / (vs.length : ℚ))

/-- Is every cell of the named column numeric or missing (a numeric dtype in
pandas select_dtypes)? -/
def colNumeric (f : Frame) (c : String) : Bool :=
  (f.colCells c).all (fun cl => match cl with | Cell.str _ => false | _ => true)

/-- The numeric-dtype columns, in column order (df.select_dtypes). -/
def numericCols (f : Frame) : List String := f.cols.filter (fun c => colNumeric f c)

/-- Derive the annual column (app.py lines 99-114): mean of the month columns
when all twelve are present, else the first alternative annual column, else
the last numeric column; when none of these applies the frame is left without
an annual column. -/
def annualStep (f : Frame) : Frame :=
  if monthsList.all (fun m => containsCol f.cols m) then
    f.setCol "annual" (f.rows.map (fun r => rowMonthMean f r))
  else
    match altCols.find? (fun c => containsCol f.cols c) with
    | some alt => f.setCol "annual" ((f.colCells alt).map Cell.toNumeric)
    | none =>
      match (numericCols f).getLast? with
      | some c => f.setCol "annual" ((f.colCells c).map Cell.toNumeric)
      | none => f

/-- The column-standardization part of fetch_f1_data: rename the year column
and coerce the months (app.py lines 89-96). -/
def f1_mid (df : Frame) : Frame := coerceMonths (renameYearStep df)

/-- The preparation part of fetch_f1_data on a parsed frame: standardize the
year column name, coerce months, derive the annual column (app.py lines
89-114). -/
def f1_prep (df : Frame) : Frame := annualStep (f1_mid df)

/-- Truncation toward zero of a rational (numpy astype int on a float). -/
def truncQ (q : ℚ) : ℤ := if 0 ≤ q then q.floor else -((-q).floor)

/-- Truncate a numeric cell to its integer value. -/
def truncCell : Cell → Cell
  | Cell.num q => Cell.num ((truncQ q : ℤ) : ℚ)
  | c => c

/-- The ValueError message of astype(int) on a missing value. -/
def valErrMsg : String := "ValueError: cannot convert non-finite values to integer"

/-- The KeyError message of dropna on the absent annual column. -/
def keyErrMsg : String := "KeyError: annual"

/-- Coerce the year column to integers (app.py lines 119-120):
to_numeric with coerce followed by astype(int), which raises a ValueError when
any coerced cell is missing; identity when there is no year column. -/
def coerceYearStep (f : Frame) : Except String Frame :=
  match f.colIdx "year" with
  | none => Except.ok f
  | some j =>
    if (f.rows.map (fun r => Cell.toNumeric (r.getD j Cell.na))).any
        (fun c => c == Cell.na) then
      Except.error valErrMsg
    else
      Except.ok (f.overwriteAt j (fun r => truncCell (Cell.toNumeric (r.getD j Cell.na))))

/-- The smallest value of a list (pandas Series.min; none when empty). -/
def listMin? : List ℚ → Option ℚ
  | [] => none
  | x :: t =>
    match listMin? t with
    | none => some x
    | some m => some (min x m)

/-- The largest value of a list (pandas Series.max; none when empty). -/
def listMax? : List ℚ → Option ℚ
  | [] => none
  | x :: t =>
    match listMax? t with
    | none => some x
    | some m => some (max x m)

/-- Rescale one cell by the observed range (the vectorized expression
(df[c] - minv) / (maxv - minv)). -/
def scaleCell (minv maxv : ℚ) : Cell → Cell
  | Cell.num q => Cell.num ((q - minv) / (maxv - minv))
  | _ => Cell.na

/-- The min-max normalization block shared by both fetchers (app.py lines
121-126 and 194-199): fail (None) when min or max is undefined or the range is
zero, else append the scaled column. -/
def normalizeOn (f : Frame) (c : String) : Option Frame :=
  match listMin? (f.numsOf c), listMax? (f.numsOf c) with
  | some minv, some maxv =>
    if maxv - minv = 0 then none
    else some (f.setCol "scaled" ((f.colCells c).map (scaleCell minv maxv)))
  | _, _ => none

/-- The post-parse part of fetch_f1_data (app.py lines 85-127): empty frames
give None; the annual column is derived (a KeyError escapes when it cannot
be); rows without an annual value are dropped; the year column is coerced to
integers (a ValueError escapes on non-numeric years); the annual series is
min-max normalized. -/
def f1_process (df : Frame) : PipeResult :=
  if df.isEmpty then PipeResult.errNone
  else
    if containsCol (f1_prep df).cols "annual" then
      match coerceYearStep ((f1_prep df).dropnaOn "annual") with
      | Except.error m => PipeResult.raised m
      | Except.ok d3 =>
        match normalizeOn d3 "annual" with
        | none => PipeResult.errNone
        | some out => PipeResult.ok out
    else PipeResult.raised keyErrMsg

/-- Parse a text and run the post-parse part of fetch_f1_data on it. -/
def f1_afterParse (txt : String) : PipeResult :=
  f1_process (parse_whitespace_table_from_text txt)

/-- Diagnostics shown by fetch_f1_data on its fallback path. -/
def diagRemoteFail : String := "error: remote fetch of F1 failed"

/-- Diagnostic shown when the local fallback file is being loaded. -/
def diagFallbackInfo : String := "info: loading local fallback file"

/-- Diagnostic shown when reading the local fallback file raised. -/
def diagFallbackReadFail : String := "error: could not read the local fallback file"

/-- Diagnostic shown when no local fallback file exists. -/
def diagNoFallback : String := "error: no local fallback file available"

/-- Embedding of fetch_f1_data (app.py lines 48-127).  The remote fetch is an
Except value (ok carries the response text); the local fallback file is absent
(none), unreadable (some error) or readable with the given content.  The
second component collects the st.error and st.info diagnostics of the fetch
stage. -/
def fetch_f1_data (remote : Except Unit String)
    (localFile : Option (Except Unit String)) : PipeResult × List String :=
  match remote with
  | Except.ok txt => (f1_afterParse txt, [])
  | Except.error _ =>
    match localFile with
    | some (Except.ok txt) =>
      (f1_afterParse txt, [diagRemoteFail, diagFallbackInfo])
    | some (Except.error _) =>
      (PipeResult.errNone, [diagRemoteFail, diagFallbackInfo, diagFallbackReadFail])
    | none => (PipeResult.errNone, [diagRemoteFail, diagNoFallback])

/-! ### The F4 pipeline (fetch_f4_data, app.py lines 131-200) -/

/-- Is the text a date of the form digits-digits-digits? -/
def isDateLike (s : String) : Bool :=
  match splitOnChar '-' s.toList with
  | [y, m, d] => (parseNat? y).isSome && (parseNat? m).isSome && (parseNat? d).isSome
  | _ => false

/-- Parse one cell as a datetime (pd.to_datetime on one element): numbers are
epoch instants, missing stays missing (NaT), date-like text parses, any other
text fails. -/
def parseDate? : Cell → Option Cell
  | Cell.num q => some (Cell.num q)
  | Cell.na => some Cell.na
  | Cell.str s => if isDateLike s then some (Cell.str s) else none

/-- Parse a whole column as datetimes; none when any element fails
(pd.to_datetime raises on the whole series). -/
def toDatetime : List Cell → Option (List Cell)
  | [] => some []
  | c :: t =>
    match parseDate? c, toDatetime t with
    | some c2, some t2 => some (c2 :: t2)
    | _, _ => none

/-- The error escaping pd.to_datetime on a named time column. -/
def dateErrMsg : String := "DateParseError: unparseable time column"

/-- The time-column resolution of fetch_f4_data (app.py lines 168-178): parse
the named time column (an error here escapes the function), else try the first
column, where a failure is caught and only warned about. -/
def f4_timeStep (df : Frame) : Except String Frame :=
  if containsCol df.cols "time [yyyy-mm-dd]" then
    match toDatetime (df.colCells "time [yyyy-mm-dd]") with
    | some cs => Except.ok (df.setCol "time" cs)
    | none => Except.error dateErrMsg
  else if containsCol df.cols "time" then
    match toDatetime (df.colCells "time") with
    | some cs => Except.ok (df.setCol "time" cs)
    | none => Except.error dateErrMsg
  else
    match df.cols.head? with
    | none => Except.ok df
    | some c0 =>
      match toDatetime (df.colCells c0) with
      | some cs => Except.ok (df.setCol "time" cs)
      | none => Except.ok df

/-- The post-read part of fetch_f4_data (app.py lines 166-200): resolve the
time column, rename the global column, fail (None) when no global column is
found, coerce it, drop missing rows and min-max normalize. -/
def f4_process (df : Frame) : PipeResult :=
  match f4_timeStep df with
  | Except.error m => PipeResult.raised m
  | Except.ok df1 =>
    let df2 :=
      if containsCol df1.cols "global [cm]" then df1.renameCol "global [cm]" "global_cm"
      else if !containsCol df1.cols "global_cm" && containsCol df1.cols "global" then
        df1.renameCol "global" "global_cm"
      else df1
    if containsCol df2.cols "global_cm" then
      let df3 := (df2.mapCol "global_cm" Cell.toNumeric).dropnaOn "global_cm"
      match normalizeOn df3 "global_cm" with
      | none => PipeResult.errNone
      | some out => PipeResult.ok out
    else PipeResult.errNone

/-- Try each remote URL in turn (app.py lines 140-149): first successful fetch
and parse wins; every failure moves on to the next URL. -/
def tryUrls (net : String → Except Unit String) : List String → Option Frame
  | [] => none
  | u :: rest =>
    match net u with
    | Except.ok txt => some (readCsvComma txt)
    | Except.error _ => tryUrls net rest

/-- Diagnostic shown when the F4 data could not be read. -/
def diagF4ReadFail : String := "error: could not read the F4 data"

/-- Diagnostic asking the user to provide the F4 csv file. -/
def diagF4Upload : String := "error: please provide the F4 csv file"

/-- Embedding of fetch_f4_data (app.py lines 131-200): try the given URLs (if
any), else read the local fallback file, returning None with diagnostics when
it is absent or unreadable; then process the frame. -/
def fetch_f4_data (possible_urls : List String) (net : String → Except Unit String)
    (localFile : Option (Except Unit String)) : PipeResult × List String :=
  match tryUrls net possible_urls with
  | some df => (f4_process df, [])
  | none =>
    match localFile with
    | some (Except.ok txt) => (f4_process (readCsvComma txt), [])
    | some (Except.error _) => (PipeResult.errNone, [diagF4ReadFail, diagF4Upload])
    | none => (PipeResult.errNone, [diagF4ReadFail, diagF4Upload])

/-! ### Concrete tables and texts used as witnesses and counterexamples -/

/-- Modelled from the spec: the comma-first parsing policy of specification
step 5 (try comma-delimited first, fall back to whitespace-delimited when the
comma parse yields a single column or fails), which the source file does not
implement; defined here only to compare against the code's parser. -/
def specCommaFirstParse (text : String) : Frame :=
  let f := readCsvComma text
  if f.cols.length ≤ 1 then readCsvWhitespace text else f

/-- A two-row table with distinct values, for the normalization witness. -/
def exTwoRows : Frame :=
  ⟨["Year", "A"], [[Cell.num 2020, Cell.num 1], [Cell.num 2021, Cell.num 3]]⟩

/-- The frame fetch_f1_data computes from exTwoRows. -/
def exTwoRowsOut : Frame :=
  ⟨["year", "A", "annual", "scaled"],
   [[Cell.num 2020, Cell.num 1, Cell.num 1, Cell.num 0],
    [Cell.num 2021, Cell.num 3, Cell.num 3, Cell.num 1]]⟩

/-- The spec's end-to-end example: two year rows with all twelve months, with
means exactly 1 and 1.05. -/
def exMonths : Frame :=
  ⟨["Year", "Jan", "Feb", "Mar", "Apr", "May", "Jun", "Jul", "Aug", "Sep", "Oct",
    "Nov", "Dec"],
   [[Cell.num 2020, Cell.num 1, Cell.num (6/5), Cell.num 1, Cell.num 1, Cell.num 1,
     Cell.num 1, Cell.num 1, Cell.num 1, Cell.num 1, Cell.num 1, Cell.num 1,
     Cell.num (4/5)],
    [Cell.num 2021, Cell.num (11/10), Cell.num (53/50), Cell.num (53/50),
     Cell.num (53/50), Cell.num (53/50), Cell.num (53/50), Cell.num (53/50),
     Cell.num (53/50), Cell.num (53/50), Cell.num (53/50), Cell.num (53/50),
     Cell.num (9/10)]]⟩

/-- A one-row table whose month cells are all non-numeric: its annual
aggregate must be missing. -/
def exNoMonths : Frame := ⟨monthsList, [List.replicate 12 (Cell.str "x")]⟩

/-- A table with no axis-column candidate at all. -/
def exNoAxis : Frame := ⟨["A"], [[Cell.num 1], [Cell.num 2]]⟩

/-- A table whose rows are in descending year order. -/
def exDescYears : Frame :=
  ⟨["Year", "A"], [[Cell.num 2021, Cell.num 2], [Cell.num 2020, Cell.num 1]]⟩

/-- The frame fetch_f1_data computes from exDescYears: the year order is
preserved, not sorted. -/
def exDescYearsOut : Frame :=
  ⟨["year", "A", "annual", "scaled"],
   [[Cell.num 2021, Cell.num 2, Cell.num 2, Cell.num 1],
    [Cell.num 2020, Cell.num 1, Cell.num 1, Cell.num 0]]⟩

/-- A well-formed GISTEMP-like text, used as local fallback content. -/
def goodF1Txt : String :=
  "Year Jan Feb Mar Apr May Jun Jul Aug Sep Oct Nov Dec\n2020 0 0 0 0 0 0 0 0 0 0 0 0\n2021 1 1 1 1 1 1 1 1 1 1 1 1"

/-- Five clean preamble lines, a GISTEMP header on line 6, then a data row. -/
def cleanPreambleTxt : String :=
  "a\nb\nc\nd\ne\nYear Jan Feb Mar Apr May Jun Jul Aug Sep Oct Nov Dec\n2020 1 2 3 4 5 6 7 8 9 10 11 12"

/-- Five preamble lines whose first line also mentions Year and Jan, the same
header on line 6, then a data row. -/
def trickyPreambleTxt : String :=
  "Year Jan overview\nb\nc\nd\ne\nYear Jan Feb Mar Apr May Jun Jul Aug Sep Oct Nov Dec\n2020 1 2 3 4 5 6 7 8 9 10 11 12"

/-- A comma-delimited GISTEMP-like text: its header line is detected, so the
code parses it whitespace-delimited into a single column. -/
def commaHeaderTxt : String := "Year,Jan,Dec\n2020,1.0,2.0"

/-- Is ascending (weak) order satisfied by the list? -/
def sortedAsc : List ℚ → Bool
  | [] => true
  | [_] => true
  | a :: b :: t => decide (a ≤ b) && sortedAsc (b :: t)

theorem getD_set_self (l : List Cell) (i : Nat) (v d : Cell) (h : i < l.length) :
    (l.set i v).getD i d = v := by
  induction l generalizing i with
  | nil => simp at h
  | cons x t ih =>
    cases i with
    | zero => rfl
    | succ k =>
      rw [List.set_cons_succ, List.getD_cons_succ]
      exact ih k (by simpa using h)

theorem getD_set_ne (l : List Cell) (i j : Nat) (v d : Cell) (h : ¬ i = j) :
    (l.set i v).getD j d = l.getD j d := by
  induction l generalizing i j with
  | nil => simp
  | cons x t ih =>
    cases i with
    | zero =>
      cases j with
      | zero => exact absurd rfl h
      | succ k => rw [List.set_cons_zero, List.getD_cons_succ, List.getD_cons_succ]
    | succ m =>
      cases j with
      | zero => rw [List.set_cons_succ, List.getD_cons_zero, List.getD_cons_zero]
      | succ k =>
        rw [List.set_cons_succ, List.getD_cons_succ, List.getD_cons_succ]
        exact ih m k (fun hh => h (by rw [hh]))

theorem length_padRow (n : Nat) (r : List Cell) : (padRow n r).length = n := by
  unfold padRow
  rw [List.length_append, List.length_take, List.length_replicate]
  omega

theorem padRow_cons (n : Nat) (x : Cell) (t : List Cell) :
    padRow (n + 1) (x :: t) = x :: padRow n t := by
  unfold padRow
  rw [List.take_succ_cons]
  simp

theorem getD_replicate_self (n i : Nat) (c : Cell) :
    (List.replicate n c).getD i c = c := by
  rw [List.getD_eq_getElem?_getD, List.getElem?_replicate]
  split <;> rfl

theorem getD_padRow (n i : Nat) (r : List Cell) (h : i < n) :
    (padRow n r).getD i Cell.na = r.getD i Cell.na := by
  induction n generalizing i r with
  | zero => omega
  | succ k ih =>
    cases r with
    | nil =>
      show (padRow (k + 1) []).getD i Cell.na = ([] : List Cell).getD i Cell.na
      unfold padRow
      rw [List.getD_nil, List.take_nil, List.nil_append, getD_replicate_self]
    | cons x t =>
      rw [padRow_cons]
      cases i with
      | zero => rfl
      | succ m =>
        rw [List.getD_cons_succ, List.getD_cons_succ]
        exact ih m t (by omega)

theorem getD_append_lt (l l2 : List Cell) (i : Nat) (d : Cell) (h : i < l.length) :
    (l ++ l2).getD i d = l.getD i d := by
  induction l generalizing i with
  | nil => simp at h
  | cons x t ih =>
    cases i with
    | zero => rfl
    | succ k =>
      rw [List.cons_append, List.getD_cons_succ, List.getD_cons_succ]
      exact ih k (by simpa using h)

theorem getD_append_len (l : List Cell) (v d : Cell) :
    (l ++ [v]).getD l.length d = v := by
  induction l with
  | nil => rfl
  | cons x t ih => rw [List.cons_append, List.length_cons, List.getD_cons_succ]; exact ih

theorem firstIdx?_nil (p : String → Bool) : firstIdx? p [] = none := rfl

theorem firstIdx?_cons (p : String → Bool) (x : String) (t : List String) :
    firstIdx? p (x :: t) =
      if p x then some 0 else (firstIdx? p t).map (· + 1) := rfl

theorem firstIdx?_none_iff (p : String → Bool) (l : List String) :
    firstIdx? p l = none ↔ ∀ x ∈ l, p x = false := by
  induction l with
  | nil => simp [firstIdx?_nil]
  | cons x t ih =>
    rw [firstIdx?_cons]
    by_cases hx : p x
    · simp [hx]
    · have hx2 : p x = false := by simpa using hx
      simp [hx2, ih]

theorem firstIdx?_lt_length {p : String → Bool} {l : List String} {i : Nat}
    (h : firstIdx? p l = some i) : i < l.length := by
  induction l generalizing i with
  | nil => simp [firstIdx?] at h
  | cons x t ih =>
    by_cases hx : p x
    · simp [firstIdx?, hx] at h
      subst h
      simp
    · simp [firstIdx?, hx] at h
      obtain ⟨k, hk, rfl⟩ := h
      have := ih hk
      simp
      omega

theorem firstIdx?_getD {p : String → Bool} {l : List String} {i : Nat}
    (h : firstIdx? p l = some i) : p (l.getD i "") = true := by
  induction l generalizing i with
  | nil => simp [firstIdx?] at h
  | cons x t ih =>
    by_cases hx : p x
    · simp [firstIdx?, hx] at h
      subst h
      simpa using hx
    · simp [firstIdx?, hx] at h
      obtain ⟨k, hk, rfl⟩ := h
      rw [List.getD_cons_succ]
      exact ih hk

theorem firstIdx?_append_left {p : String → Bool} {l1 : List String} {i : Nat}
    (h : firstIdx? p l1 = some i) (l2 : List String) :
    firstIdx? p (l1 ++ l2) = some i := by
  induction l1 generalizing i with
  | nil => simp [firstIdx?] at h
  | cons x t ih =>
    by_cases hx : p x
    · simp [firstIdx?, hx] at h ⊢
      exact h
    · simp [firstIdx?, hx] at h ⊢
      obtain ⟨k, hk, rfl⟩ := h
      exact ⟨k, ih hk, rfl⟩

theorem firstIdx?_append_none {p : String → Bool} {l1 : List String}
    (h : ∀ x ∈ l1, p x = false) (l2 : List String) :
    firstIdx? p (l1 ++ l2) = (firstIdx? p l2).map (· + l1.length) := by
  induction l1 with
  | nil => simp
  | cons x t ih =>
    have hx : p x = false := h x (by simp)
    have ht : ∀ y ∈ t, p y = false := fun y hy => h y (by simp [hy])
    rw [List.cons_append]
    show (if p x then some 0 else (firstIdx? p (t ++ l2)).map (· + 1)) = _
    rw [hx, if_neg (by simp), ih ht, Option.map_map]
    cases firstIdx? p l2 with
    | none => rfl
    | some k =>
      simp [Function.comp]
      try omega

theorem containsCol_append_other {l : List String} {x c : String}
    (h : (x == c) = false) : containsCol (l ++ [x]) c = containsCol l c := by
  unfold containsCol
  cases hf : firstIdx? (fun s => s == c) l with
  | some i => rw [firstIdx?_append_left hf]
  | none =>
    rw [firstIdx?_append_none ((firstIdx?_none_iff _ _).mp hf)]
    simp [firstIdx?_cons, firstIdx?_nil, h, hf]

theorem containsCol_some {cols : List String} {c : String}
    (h : containsCol cols c = true) :
    ∃ i, firstIdx? (fun s => s == c) cols = some i := by
  unfold containsCol at h
  cases hf : firstIdx? (fun s => s == c) cols with
  | some i => exact ⟨i, rfl⟩
  | none => rw [hf] at h; simp at h

theorem colIdx_getD {f : Frame} {c : String} {i : Nat}
    (h : f.colIdx c = some i) : f.cols.getD i "" = c := by
  have h2 := firstIdx?_getD (p := fun s => s == c) h
  simpa using h2

theorem listMin?_eq_none_iff (l : List ℚ) : listMin? l = none ↔ l = [] := by
  cases l with
  | nil => simp [listMin?]
  | cons x t =>
    cases ht : listMin? t <;> simp [listMin?, ht]

theorem listMax?_eq_none_iff (l : List ℚ) : listMax? l = none ↔ l = [] := by
  cases l with
  | nil => simp [listMax?]
  | cons x t =>
    cases ht : listMax? t <;> simp [listMax?, ht]

theorem listMin?_le {l : List ℚ} {m : ℚ} (h : listMin? l = some m) :
    ∀ x ∈ l, m ≤ x := by
  induction l generalizing m with
  | nil => simp [listMin?] at h
  | cons x t ih =>
    intro y hy
    cases ht : listMin? t with
    | none =>
      have ht2 : t = [] := (listMin?_eq_none_iff t).mp ht
      subst ht2
      simp [listMin?] at h
      subst h
      simp at hy
      subst hy
      exact le_refl _
    | some m2 =>
      simp [listMin?, ht] at h
      rcases List.mem_cons.mp hy with rfl | hyt
      · rw [← h]; exact min_le_left _ _
      · exact le_trans (by rw [← h]; exact min_le_right _ _) (ih ht y hyt)

theorem listMax?_ge {l : List ℚ} {m : ℚ} (h : listMax? l = some m) :
    ∀ x ∈ l, x ≤ m := by
  induction l generalizing m with
  | nil => simp [listMax?] at h
  | cons x t ih =>
    intro y hy
    cases ht : listMax? t with
    | none =>
      have ht2 : t = [] := (listMax?_eq_none_iff t).mp ht
      subst ht2
      simp [listMax?] at h
      subst h
      simp at hy
      subst hy
      exact le_refl _
    | some m2 =>
      simp [listMax?, ht] at h
      rcases List.mem_cons.mp hy with rfl | hyt
      · rw [← h]; exact le_max_left _ _
      · exact le_trans (ih ht y hyt) (by rw [← h]; exact le_max_right _ _)

theorem listMin?_mem {l : List ℚ} {m : ℚ} (h : listMin? l = some m) : m ∈ l := by
  induction l generalizing m with
  | nil => simp [listMin?] at h
  | cons x t ih =>
    cases ht : listMin? t with
    | none =>
      have ht2 : t = [] := (listMin?_eq_none_iff t).mp ht
      subst ht2
      simp [listMin?] at h
      simp [h]
    | some m2 =>
      simp [listMin?, ht] at h
      rcases min_cases x m2 with ⟨he, _⟩ | ⟨he, _⟩
      · rw [← h, he]; simp
      · rw [← h, he]; simp [ih ht]

theorem listMax?_mem {l : List ℚ} {m : ℚ} (h : listMax? l = some m) : m ∈ l := by
  induction l generalizing m with
  | nil => simp [listMax?] at h
  | cons x t ih =>
    cases ht : listMax? t with
    | none =>
      have ht2 : t = [] := (listMax?_eq_none_iff t).mp ht
      subst ht2
      simp [listMax?] at h
      simp [h]
    | some m2 =>
      simp [listMax?, ht] at h
      rcases max_cases x m2 with ⟨he, _⟩ | ⟨he, _⟩
      · rw [← h, he]; simp
      · rw [← h, he]; simp [ih ht]

theorem listMax?_nil : listMax? [] = none := rfl

theorem mapCongr {α β : Type} {g h : α → β} :
    ∀ l : List α, (∀ a ∈ l, g a = h a) → l.map g = l.map h := by
  intro l
  induction l with
  | nil => intro _; rfl
  | cons x t ih =>
    intro ha
    rw [List.map_cons, List.map_cons, ha x (by simp), ih (fun a hat => ha a (by simp [hat]))]

theorem map_getD_zipWith_set {j n : Nat} (hjn : j < n) :
    ∀ (rows : List (List Cell)) (vals : List Cell), vals.length = rows.length →
      (List.zipWith (fun r v => (padRow n r).set j v) rows vals).map
        (fun r => r.getD j Cell.na) = vals := by
  intro rows
  induction rows with
  | nil =>
    intro vals h
    cases vals with
    | nil => rfl
    | cons v vt => simp at h
  | cons r rt ih =>
    intro vals h
    cases vals with
    | nil => simp at h
    | cons v vt =>
      rw [List.zipWith_cons_cons, List.map_cons,
        getD_set_self _ _ _ _ (by rw [length_padRow]; exact hjn),
        ih vt (by simpa using h)]

theorem map_getD_zipWith_set_ne {i j n : Nat} (hin : i < n) (hij : ¬ j = i) :
    ∀ (rows : List (List Cell)) (vals : List Cell), vals.length = rows.length →
      (List.zipWith (fun r v => (padRow n r).set j v) rows vals).map
        (fun r => r.getD i Cell.na) = rows.map (fun r => r.getD i Cell.na) := by
  intro rows
  induction rows with
  | nil =>
    intro vals h
    cases vals with
    | nil => rfl
    | cons v vt => simp at h
  | cons r rt ih =>
    intro vals h
    cases vals with
    | nil => simp at h
    | cons v vt =>
      rw [List.zipWith_cons_cons, List.map_cons, List.map_cons,
        getD_set_ne _ _ _ _ _ hij, getD_padRow _ _ _ hin,
        ih vt (by simpa using h)]

theorem map_getD_zipWith_append {n : Nat} :
    ∀ (rows : List (List Cell)) (vals : List Cell), vals.length = rows.length →
      (List.zipWith (fun r v => padRow n r ++ [v]) rows vals).map
        (fun r => r.getD n Cell.na) = vals := by
  intro rows
  induction rows with
  | nil =>
    intro vals h
    cases vals with
    | nil => rfl
    | cons v vt => simp at h
  | cons r rt ih =>
    intro vals h
    cases vals with
    | nil => simp at h
    | cons v vt =>
      rw [List.zipWith_cons_cons, List.map_cons]
      have h1 : (padRow n r ++ [v]).getD n Cell.na = v := by
        have h2 := getD_append_len (padRow n r) v Cell.na
        rwa [length_padRow] at h2
      rw [h1, ih vt (by simpa using h)]

theorem map_getD_zipWith_append_ne {i n : Nat} (hin : i < n) :
    ∀ (rows : List (List Cell)) (vals : List Cell), vals.length = rows.length →
      (List.zipWith (fun r v => padRow n r ++ [v]) rows vals).map
        (fun r => r.getD i Cell.na) = rows.map (fun r => r.getD i Cell.na) := by
  intro rows
  induction rows with
  | nil =>
    intro vals h
    cases vals with
    | nil => rfl
    | cons v vt => simp at h
  | cons r rt ih =>
    intro vals h
    cases vals with
    | nil => simp at h
    | cons v vt =>
      rw [List.zipWith_cons_cons, List.map_cons, List.map_cons,
        getD_append_lt _ _ _ _ (by rw [length_padRow]; exact hin),
        getD_padRow _ _ _ hin, ih vt (by simpa using h)]

/-! ### Frame-level lemmas -/

theorem cols_overwriteAt (f : Frame) (j : Nat) (g : List Cell → Cell) :
    (f.overwriteAt j g).cols = f.cols := rfl

theorem cols_mapCol (f : Frame) (c : String) (g : Cell → Cell) :
    (f.mapCol c g).cols = f.cols := by
  unfold Frame.mapCol
  cases f.colIdx c <;> rfl

theorem cols_dropnaOn (f : Frame) (c : String) : (f.dropnaOn c).cols = f.cols := by
  unfold Frame.dropnaOn
  cases f.colIdx c <;> rfl

theorem cols_foldl_mapCol (ms : List String) (f : Frame) :
    (ms.foldl (fun g m => g.mapCol m Cell.toNumeric) f).cols = f.cols := by
  induction ms generalizing f with
  | nil => rfl
  | cons m mt ih => rw [List.foldl_cons, ih, cols_mapCol]

theorem cols_coerceMonths (f : Frame) : (coerceMonths f).cols = f.cols :=
  cols_foldl_mapCol monthsList f

theorem colIdx_congr {f f2 : Frame} (h : f2.cols = f.cols) (c : String) :
    f2.colIdx c = f.colIdx c := by
  unfold Frame.colIdx
  rw [h]

theorem colCells_of_some {f : Frame} {c : String} {i : Nat} (hi : f.colIdx c = some i) :
    f.colCells c = f.rows.map (fun r => r.getD i Cell.na) := by
  unfold Frame.colCells
  rw [hi]

theorem colCells_of_none {f : Frame} {c : String} (hi : f.colIdx c = none) :
    f.colCells c = [] := by
  unfold Frame.colCells
  rw [hi]

theorem setCol_of_some {f : Frame} {c : String} {j : Nat} (hj : f.colIdx c = some j)
    (vals : List Cell) :
    f.setCol c vals =
      ⟨f.cols, List.zipWith (fun r v => (padRow f.cols.length r).set j v) f.rows vals⟩ := by
  unfold Frame.setCol
  rw [hj]

theorem setCol_of_none {f : Frame} {c : String} (hj : f.colIdx c = none)
    (vals : List Cell) :
    f.setCol c vals =
      ⟨f.cols ++ [c], List.zipWith (fun r v => padRow f.cols.length r ++ [v]) f.rows vals⟩ := by
  unfold Frame.setCol
  rw [hj]

theorem coerceYearStep_of_none {f : Frame} (hy : f.colIdx "year" = none) :
    coerceYearStep f = Except.ok f := by
  unfold coerceYearStep
  rw [hy]

theorem coerceYearStep_of_some {f : Frame} {j : Nat} (hy : f.colIdx "year" = some j) :
    coerceYearStep f =
      if (f.rows.map (fun r => Cell.toNumeric (r.getD j Cell.na))).any
          (fun c => c == Cell.na) then
        Except.error valErrMsg
      else
        Except.ok (f.overwriteAt j (fun r => truncCell (Cell.toNumeric (r.getD j Cell.na)))) := by
  unfold coerceYearStep
  rw [hy]

theorem cols_coerceYearStep {f f2 : Frame} (h : coerceYearStep f = Except.ok f2) :
    f2.cols = f.cols := by
  cases hy : f.colIdx "year" with
  | none =>
    rw [coerceYearStep_of_none hy] at h
    simp at h
    rw [h]
  | some j =>
    rw [coerceYearStep_of_some hy] at h
    split at h
    · simp at h
    · rw [← Except.ok.inj h]
      rfl

theorem length_colCells {f : Frame} {c : String} {i : Nat} (h : f.colIdx c = some i) :
    (f.colCells c).length = f.rows.length := by
  rw [colCells_of_some h, List.length_map]

theorem colCells_setCol_self {f : Frame} {c : String} {vals : List Cell}
    (hlen : vals.length = f.rows.length) :
    (f.setCol c vals).colCells c = vals := by
  cases hj : f.colIdx c with
  | some j =>
    rw [setCol_of_some hj]
    have hidx : (Frame.mk f.cols
        (List.zipWith (fun r v => (padRow f.cols.length r).set j v) f.rows vals)).colIdx c
        = some j := hj
    rw [colCells_of_some hidx]
    exact map_getD_zipWith_set (firstIdx?_lt_length hj) f.rows vals hlen
  | none =>
    rw [setCol_of_none hj]
    have hidx : (Frame.mk (f.cols ++ [c])
        (List.zipWith (fun r v => padRow f.cols.length r ++ [v]) f.rows vals)).colIdx c
        = some f.cols.length := by
      show firstIdx? (fun s => s == c) (f.cols ++ [c]) = some f.cols.length
      rw [firstIdx?_append_none ((firstIdx?_none_iff _ _).mp hj)]
      rw [firstIdx?_cons]
      simp
    rw [colCells_of_some hidx]
    exact map_getD_zipWith_append f.rows vals hlen

theorem numsOf_setCol_self {f : Frame} {c : String} {vals : List Cell}
    (hlen : vals.length = f.rows.length) :
    (f.setCol c vals).numsOf c = vals.filterMap Cell.num? := by
  unfold Frame.numsOf
  rw [colCells_setCol_self hlen]

theorem colCells_setCol_ne {f : Frame} {c c2 : String} {vals : List Cell} {i : Nat}
    (hi : f.colIdx c = some i) (hne : ¬ c2 = c) (hlen : vals.length = f.rows.length) :
    (f.setCol c2 vals).colCells c = f.colCells c := by
  cases hj : f.colIdx c2 with
  | some j =>
    rw [setCol_of_some hj]
    have hic : f.cols.getD i "" = c := colIdx_getD hi
    have hjc : f.cols.getD j "" = c2 := colIdx_getD hj
    have hij : ¬ j = i := fun he => hne (by rw [← hjc, he, hic])
    have hidx : (Frame.mk f.cols
        (List.zipWith (fun r v => (padRow f.cols.length r).set j v) f.rows vals)).colIdx c
        = some i := hi
    rw [colCells_of_some hidx, colCells_of_some hi]
    exact map_getD_zipWith_set_ne (firstIdx?_lt_length hi) hij f.rows vals hlen
  | none =>
    rw [setCol_of_none hj]
    have hidx : (Frame.mk (f.cols ++ [c2])
        (List.zipWith (fun r v => padRow f.cols.length r ++ [v]) f.rows vals)).colIdx c
        = some i := by
      show firstIdx? (fun s => s == c) (f.cols ++ [c2]) = some i
      exact firstIdx?_append_left hi [c2]
    rw [colCells_of_some hidx, colCells_of_some hi]
    exact map_getD_zipWith_append_ne (firstIdx?_lt_length hi) f.rows vals hlen

theorem numsOf_setCol_ne {f : Frame} {c c2 : String} {vals : List Cell} {i : Nat}
    (hi : f.colIdx c = some i) (hne : ¬ c2 = c) (hlen : vals.length = f.rows.length) :
    (f.setCol c2 vals).numsOf c = f.numsOf c := by
  unfold Frame.numsOf
  rw [colCells_setCol_ne hi hne hlen]

theorem colCells_overwriteAt_ne {f : Frame} {c : String} {i j : Nat}
    (hi : f.colIdx c = some i) (hij : ¬ j = i) (g : List Cell → Cell) :
    (f.overwriteAt j g).colCells c = f.colCells c := by
  have hidx : (f.overwriteAt j g).colIdx c = some i := hi
  rw [colCells_of_some hidx, colCells_of_some hi]
  show (f.rows.map (fun r => (padRow f.cols.length r).set j (g r))).map
      (fun r => r.getD i Cell.na) = _
  rw [List.map_map]
  apply mapCongr
  intro r _
  show ((padRow f.cols.length r).set j (g r)).getD i Cell.na = r.getD i Cell.na
  rw [getD_set_ne _ _ _ _ _ hij, getD_padRow _ _ _ (firstIdx?_lt_length hi)]

theorem colCells_coerceYearStep {f f2 : Frame} {c : String}
    (h : coerceYearStep f = Except.ok f2) (hne : ¬ c = "year") :
    f2.colCells c = f.colCells c := by
  cases hy : f.colIdx "year" with
  | none =>
    rw [coerceYearStep_of_none hy] at h
    simp at h
    rw [h]
  | some j =>
    rw [coerceYearStep_of_some hy] at h
    split at h
    · simp at h
    · rw [← Except.ok.inj h]
      cases hci : f.colIdx c with
      | none =>
        have hidx : (Frame.overwriteAt f j
            (fun r => truncCell (Cell.toNumeric (r.getD j Cell.na)))).colIdx c
            = f.colIdx c := rfl
        rw [colCells_of_none (hidx.trans hci), colCells_of_none hci]
      | some i =>
        have hic : f.cols.getD i "" = c := colIdx_getD hci
        have hjc : f.cols.getD j "" = "year" := colIdx_getD hy
        have hij : ¬ j = i := fun he => hne (by rw [← hic, ← he, hjc])
        exact colCells_overwriteAt_ne hci hij _

theorem numsOf_coerceYearStep {f f2 : Frame} {c : String}
    (h : coerceYearStep f = Except.ok f2) (hne : ¬ c = "year") :
    f2.numsOf c = f.numsOf c := by
  unfold Frame.numsOf
  rw [colCells_coerceYearStep h hne]

theorem filterMap_map_scaleCell (a b : ℚ) :
    ∀ cells : List Cell,
      (cells.map (scaleCell a b)).filterMap Cell.num? =
        (cells.filterMap Cell.num?).map (fun q => (q - a) / (b - a)) := by
  intro cells
  induction cells with
  | nil => rfl
  | cons x t ih => cases x <;> simp [scaleCell, Cell.num?, ih]

/-! ### Claim theorems -/

/-- C1.  For every raw table that normalizes successfully, each output
record's scaled value equals (raw - min) / (max - min) where min and max range
over the retained records; the minimum raw value scales to exactly 0, the
maximum to exactly 1, every scaled value lies in the interval from 0 to 1, and
scaled values are monotonic in raw values. -/
theorem f1_scaled_minmax_formula (df out : Frame) (minv maxv : ℚ)
    (h : f1_process df = PipeResult.ok out)
    (hmin : listMin? (out.numsOf "annual") = some minv)
    (hmax : listMax? (out.numsOf "annual") = some maxv) :
    out.numsOf "scaled" = (out.numsOf "annual").map (fun v => (v - minv) / (maxv - minv))
    ∧ (∀ v ∈ out.numsOf "annual", v = minv → (v - minv) / (maxv - minv) = 0)
    ∧ (∀ v ∈ out.numsOf "annual", v = maxv → (v - minv) / (maxv - minv) = 1)
    ∧ (∀ s ∈ out.numsOf "scaled", 0 ≤ s ∧ s ≤ 1)
    ∧ (∀ v w, v ∈ out.numsOf "annual" → w ∈ out.numsOf "annual" → v ≤ w →
        (v - minv) / (maxv - minv) ≤ (w - minv) / (maxv - minv)) := by
  unfold f1_process at h
  split at h
  · simp at h
  split at h
  case isFalse => simp at h
  case isTrue hA =>
    split at h
    next m hcy => simp at h
    next d3 hcy =>
      split at h
      next hno => simp at h
      next out2 hno =>
        simp at h
        subst h
        unfold normalizeOn at hno
        cases hm1 : listMin? (d3.numsOf "annual") with
        | none => rw [hm1] at hno; simp at hno
        | some minv2 =>
          cases hm2 : listMax? (d3.numsOf "annual") with
          | none => rw [hm1, hm2] at hno; simp at hno
          | some maxv2 =>
            rw [hm1, hm2] at hno
            simp at hno
            obtain ⟨hzero, hout⟩ := hno
            · skip
              have hcols3 : d3.cols = (f1_prep df).cols := by
                rw [cols_coerceYearStep hcy, cols_dropnaOn]
              have hA3 : containsCol d3.cols "annual" = true := by
                rw [hcols3]
                exact hA
              obtain ⟨i3, hi3⟩ := containsCol_some hA3
              have hidx3 : d3.colIdx "annual" = some i3 := hi3
              have hlen : ((d3.colCells "annual").map (scaleCell minv2 maxv2)).length
                  = d3.rows.length := by
                rw [List.length_map, length_colCells hidx3]
              have hann : out2.numsOf "annual" = d3.numsOf "annual" := by
                rw [← hout]
                exact numsOf_setCol_ne hidx3 (by decide) hlen
              have hsc : out2.numsOf "scaled" =
                  (d3.numsOf "annual").map (fun q => (q - minv2) / (maxv2 - minv2)) := by
                rw [← hout, numsOf_setCol_self hlen]
                exact filterMap_map_scaleCell minv2 maxv2 (d3.colCells "annual")
              have hminv : minv2 = minv := by
                have hc := hmin
                rw [hann, hm1] at hc
                exact Option.some.inj hc
              have hmaxv : maxv2 = maxv := by
                have hc := hmax
                rw [hann, hm2] at hc
                exact Option.some.inj hc
              subst hminv
              subst hmaxv
              have hle : minv2 ≤ maxv2 :=
                listMax?_ge hmax minv2 (listMin?_mem hmin)
              have hne0 : maxv2 - minv2 ≠ 0 := hzero
              have hpos : 0 < maxv2 - minv2 :=
                lt_of_le_of_ne (by linarith) (Ne.symm hne0)
              have hconj1 : out2.numsOf "scaled" =
                  (out2.numsOf "annual").map (fun v => (v - minv2) / (maxv2 - minv2)) := by
                rw [hsc, hann]
              refine ⟨hconj1, ?_, ?_, ?_, ?_⟩
              · intro v _ hveq
                rw [hveq, sub_self, zero_div]
              · intro v _ hveq
                rw [hveq]
                exact div_self hne0
              · intro s hs
                rw [hconj1] at hs
                obtain ⟨v, hv, rfl⟩ := List.mem_map.mp hs
                constructor
                · exact div_nonneg (sub_nonneg.mpr (listMin?_le hmin v hv)) (le_of_lt hpos)
                · rw [div_le_one hpos]
                  have := listMax?_ge hmax v hv
                  linarith
              · intro v w _ _ hvw
                have hnum : v - minv2 ≤ w - minv2 := by linarith
                exact (div_le_div_iff_of_pos_right hpos).mpr hnum

/-- Witness for C1: the two-row table with annual values 1 and 3 normalizes
with the minimum scaling to 0 and the maximum to 1. -/
theorem f1_scaled_minmax_formula_witness :
    f1_process exTwoRows = PipeResult.ok exTwoRowsOut
    ∧ listMin? (exTwoRowsOut.numsOf "annual") = some 1
    ∧ listMax? (exTwoRowsOut.numsOf "annual") = some 3
    ∧ (exTwoRowsOut.numsOf "scaled" =
        (exTwoRowsOut.numsOf "annual").map (fun v => (v - 1) / (3 - 1))
      ∧ (∀ v ∈ exTwoRowsOut.numsOf "annual", v = 1 → (v - 1) / (3 - 1) = 0)
      ∧ (∀ v ∈ exTwoRowsOut.numsOf "annual", v = 3 → (v - 1) / (3 - 1) = 1)
      ∧ (∀ s ∈ exTwoRowsOut.numsOf "scaled", 0 ≤ s ∧ s ≤ 1)
      ∧ (∀ v w, v ∈ exTwoRowsOut.numsOf "annual" → w ∈ exTwoRowsOut.numsOf "annual" →
          v ≤ w → (v - 1) / (3 - 1) ≤ (w - 1) / (3 - 1))) :=
  ⟨by decide, by decide, by decide,
    f1_scaled_minmax_formula exTwoRows exTwoRowsOut 1 3 (by decide) (by decide) (by decide)⟩

/-- C4.  When the remote fetch fails and a readable local fallback file is
present whose content processes successfully, fetch_f1_data returns exactly
the result computed from the local data (a success, nothing raised), and its
diagnostics record that the remote failure occurred. -/
theorem f1_fallback_uses_local_data (txt : String)
    (h : resultOk (f1_afterParse txt) = true) :
    (fetch_f1_data (Except.error ()) (some (Except.ok txt))).1 = f1_afterParse txt
    ∧ resultOk (fetch_f1_data (Except.error ()) (some (Except.ok txt))).1 = true
    ∧ diagRemoteFail ∈ (fetch_f1_data (Except.error ()) (some (Except.ok txt))).2 := by
  refine ⟨rfl, h, ?_⟩
  exact List.mem_cons_self _ _

set_option maxRecDepth 65536 in
/-- Witness for C4 on a concrete well-formed local fallback text. -/
theorem f1_fallback_uses_local_data_witness :
    resultOk (f1_afterParse goodF1Txt) = true
    ∧ ((fetch_f1_data (Except.error ()) (some (Except.ok goodF1Txt))).1 = f1_afterParse goodF1Txt
      ∧ resultOk (fetch_f1_data (Except.error ()) (some (Except.ok goodF1Txt))).1 = true
      ∧ diagRemoteFail ∈ (fetch_f1_data (Except.error ()) (some (Except.ok goodF1Txt))).2) :=
  ⟨by decide, f1_fallback_uses_local_data goodF1Txt (by decide)⟩

set_option maxRecDepth 65536 in
/-- C5.  When all twelve month columns are present, the derived annual cell of
each row is the arithmetic mean of the row's populated month cells
(non-numeric cells count as missing, and a row with no populated month cell
gets a missing annual value); the spec's two-row example yields annual means
1 and 1.05 and scaled values 0 and 1. -/
theorem f1_annual_mean_of_months (df : Frame)
    (hm : monthsList.all (fun m => containsCol (f1_mid df).cols m) = true) :
    (f1_prep df).colCells "annual" = (f1_mid df).rows.map (rowMonthMean (f1_mid df))
    ∧ resultOk (f1_process exMonths) = true
    ∧ resultNums (f1_process exMonths) "annual" = [1, 21/20]
    ∧ resultNums (f1_process exMonths) "scaled" = [0, 1]
    ∧ (f1_prep exNoMonths).colCells "annual" = [Cell.na] := by
  refine ⟨?_, by decide, by decide, by decide, by decide⟩
  unfold f1_prep annualStep
  rw [if_pos hm]
  exact colCells_setCol_self (by rw [List.length_map])

set_option maxRecDepth 65536 in
/-- Witness for C5 at the spec's two-row example table. -/
theorem f1_annual_mean_of_months_witness :
    (f1_prep exMonths).colCells "annual" =
      (f1_mid exMonths).rows.map (rowMonthMean (f1_mid exMonths))
    ∧ resultOk (f1_process exMonths) = true
    ∧ resultNums (f1_process exMonths) "annual" = [1, 21/20]
    ∧ resultNums (f1_process exMonths) "scaled" = [0, 1]
    ∧ (f1_prep exNoMonths).colCells "annual" = [Cell.na] :=
  f1_annual_mean_of_months exMonths (by decide)

theorem containsCol_setCol_other (f : Frame) (c2 : String) (vals : List Cell)
    (c : String) (hc : (c2 == c) = false) :
    containsCol (f.setCol c2 vals).cols c = containsCol f.cols c := by
  cases hj : f.colIdx c2 with
  | some j => rw [setCol_of_some hj]
  | none =>
    rw [setCol_of_none hj]
    exact containsCol_append_other hc

theorem containsCol_annualStep (f : Frame) (c : String) (hc : ("annual" == c) = false) :
    containsCol (annualStep f).cols c = containsCol f.cols c := by
  unfold annualStep
  split
  · exact containsCol_setCol_other f "annual" _ c hc
  · split
    next alt hfind => exact containsCol_setCol_other f "annual" _ c hc
    next hfind =>
      split
      next cl hlast => exact containsCol_setCol_other f "annual" _ c hc
      next hlast => rfl

theorem cols_f1_mid_noYear {df : Frame} (h1 : containsCol df.cols "Year" = false) :
    (f1_mid df).cols = df.cols := by
  unfold f1_mid
  rw [cols_coerceMonths]
  unfold renameYearStep
  rw [h1]
  simp

/-- Counterexample for C6: a table with no axis-column candidate at all is
processed successfully by fetch_f1_data: no error result is returned, the
scaled series is produced, and no MissingAxisColumn failure exists in the
code. -/
theorem f1_no_axis_still_succeeds :
    containsCol exNoAxis.cols "Year" = false
    ∧ containsCol exNoAxis.cols "year" = false
    ∧ containsCol exNoAxis.cols "time" = false
    ∧ resultOk (f1_process exNoAxis) = true
    ∧ resultNums (f1_process exNoAxis) "scaled" = [0, 1] :=
  ⟨by decide, by decide, by decide, by decide, by decide⟩

/-- C6 amended.  When no axis-column candidate is present the pipeline does
not fail on that account: the year-coercion step leaves the table unchanged
(it is a no-op, not an error), processing continues with an unresolved axis,
and such a table can still normalize successfully. -/
theorem f1_missing_axis_is_noop (df : Frame)
    (h1 : containsCol df.cols "Year" = false)
    (h2 : containsCol df.cols "year" = false) :
    coerceYearStep ((f1_prep df).dropnaOn "annual") =
      Except.ok ((f1_prep df).dropnaOn "annual")
    ∧ resultOk (f1_process exNoAxis) = true := by
  constructor
  · have hfalse : containsCol ((f1_prep df).dropnaOn "annual").cols "year" = false := by
      rw [cols_dropnaOn]
      unfold f1_prep
      rw [containsCol_annualStep _ _ (by decide), cols_f1_mid_noYear h1]
      exact h2
    have hyearn : ((f1_prep df).dropnaOn "annual").colIdx "year" = none := by
      unfold containsCol at hfalse
      cases hI : ((f1_prep df).dropnaOn "annual").colIdx "year" with
      | none => rfl
      | some i =>
        unfold Frame.colIdx at hI
        rw [hI] at hfalse
        simp at hfalse
    exact coerceYearStep_of_none hyearn
  · decide

/-- Witness for the amended C6 at the concrete axis-less table. -/
theorem f1_missing_axis_is_noop_witness :
    coerceYearStep ((f1_prep exNoAxis).dropnaOn "annual") =
      Except.ok ((f1_prep exNoAxis).dropnaOn "annual")
    ∧ resultOk (f1_process exNoAxis) = true :=
  f1_missing_axis_is_noop exNoAxis (by decide) (by decide)

theorem firstIdx?_take_of_lt {p : String → Bool} {l : List String} {i n : Nat}
    (h : firstIdx? p l = some i) (hin : i < n) :
    firstIdx? p (l.take n) = some i := by
  induction l generalizing i n with
  | nil => simp [firstIdx?_nil] at h
  | cons x t ih =>
    cases n with
    | zero => omega
    | succ k =>
      rw [List.take_succ_cons, firstIdx?_cons]
      rw [firstIdx?_cons] at h
      by_cases hx : p x
      · rw [if_pos hx] at h ⊢
        exact h
      · rw [if_neg hx] at h ⊢
        cases hf : firstIdx? p t with
        | none => rw [hf] at h; simp at h
        | some m =>
          rw [hf] at h
          simp at h
          rw [ih hf (by omega)]
          simp [h]

set_option maxRecDepth 65536 in
/-- Counterexample for C7: when a preamble line itself contains Year and Jan,
the scanner picks that line (line 1), not line 6, as the header: the parse is
not the whitespace parse starting at line 6. -/
theorem header_detection_early_match :
    headerFind (pySplitlines trickyPreambleTxt) = some 0
    ∧ parse_whitespace_table_from_text trickyPreambleTxt ≠
        readCsvWhitespace (joinLines ((pySplitlines trickyPreambleTxt).drop 5)) :=
  ⟨by decide, by decide⟩

/-- C7 amended.  When none of the five preamble lines matches the header test
(containing Year together with Jan or Dec) and the sixth line does, the
parser discards exactly the first five lines and treats line 6 as the header
row of a whitespace-delimited parse. -/
theorem header_detection_clean_preamble (text : String) (pre : List String)
    (hdr : String) (data : List String)
    (hsplit : pySplitlines text = pre ++ hdr :: data)
    (hlen : pre.length = 5)
    (hpre : ∀ l ∈ pre, isHeader1 l = false)
    (hhdr : isHeader1 hdr = true) :
    headerFind (pySplitlines text) = some 5
    ∧ parse_whitespace_table_from_text text =
        readCsvWhitespace (joinLines (hdr :: data)) := by
  have hfull : firstIdx? isHeader1 (pre ++ hdr :: data) = some 5 := by
    rw [firstIdx?_append_none hpre, firstIdx?_cons, hhdr]
    simp [hlen]
  have hfind : headerFind (pySplitlines text) = some 5 := by
    rw [hsplit]
    unfold headerFind
    rw [firstIdx?_take_of_lt hfull (by omega)]
  refine ⟨hfind, ?_⟩
  unfold parse_whitespace_table_from_text
  rw [hfind, hsplit]
  have hdrop : (pre ++ hdr :: data).drop 5 = hdr :: data := by
    rw [← hlen]
    exact List.drop_left _ _
  show readCsvWhitespace (joinLines ((pre ++ hdr :: data).drop 5)) =
    readCsvWhitespace (joinLines (hdr :: data))
  rw [hdrop]

set_option maxRecDepth 65536 in
/-- Witness for the amended C7 on a concrete five-line preamble text. -/
theorem header_detection_clean_preamble_witness :
    pySplitlines cleanPreambleTxt =
      ["a", "b", "c", "d", "e"] ++
        "Year Jan Feb Mar Apr May Jun Jul Aug Sep Oct Nov Dec" ::
          ["2020 1 2 3 4 5 6 7 8 9 10 11 12"]
    ∧ (headerFind (pySplitlines cleanPreambleTxt) = some 5
      ∧ parse_whitespace_table_from_text cleanPreambleTxt =
          readCsvWhitespace (joinLines
            ("Year Jan Feb Mar Apr May Jun Jul Aug Sep Oct Nov Dec" ::
              ["2020 1 2 3 4 5 6 7 8 9 10 11 12"]))) :=
  ⟨by decide,
    header_detection_clean_preamble cleanPreambleTxt ["a", "b", "c", "d", "e"]
      "Year Jan Feb Mar Apr May Jun Jul Aug Sep Oct Nov Dec"
      ["2020 1 2 3 4 5 6 7 8 9 10 11 12"] (by decide) (by decide) (by decide) (by decide)⟩

set_option maxRecDepth 65536 in
/-- Counterexample for C8: on a comma-delimited GISTEMP-like text the code
finds the header and parses whitespace-delimited into a single column, while
the comma-first policy stated by the claim would produce three columns. -/
theorem parser_not_comma_first :
    (parse_whitespace_table_from_text commaHeaderTxt).cols = ["Year,Jan,Dec"]
    ∧ (specCommaFirstParse commaHeaderTxt).cols = ["Year", "Jan", "Dec"]
    ∧ parse_whitespace_table_from_text commaHeaderTxt ≠ specCommaFirstParse commaHeaderTxt :=
  ⟨by decide, by decide, by decide⟩

/-- C8 amended.  After locating a header line the parser always parses the
remaining text whitespace-delimited; a plain comma-delimited parse happens
only as the last resort when no header line was found.  There is no
comma-first parse with a whitespace fallback. -/
theorem parser_whitespace_after_header (text : String) :
    parse_whitespace_table_from_text text =
      match headerFind (pySplitlines text) with
      | none => readCsvComma text
      | some i => readCsvWhitespace (joinLines ((pySplitlines text).drop i)) := rfl

/-- Counterexample for C9: a table whose rows arrive in descending year order
normalizes successfully and the output keeps the years in the order
[2021, 2020]: the returned series is not sorted by axis ascending. -/
theorem f1_output_not_sorted_by_year :
    f1_process exDescYears = PipeResult.ok exDescYearsOut
    ∧ resultNums (f1_process exDescYears) "year" = [2021, 2020]
    ∧ sortedAsc (resultNums (f1_process exDescYears) "year") = false :=
  ⟨by decide, by decide, by decide⟩

/-- C9 amended.  The returned series preserves the input row order of the
retained rows: the annual values of the output frame are exactly the retained
input annual values in their original order; the pipeline never sorts by
axis. -/
theorem f1_output_preserves_input_order (df out : Frame)
    (h : f1_process df = PipeResult.ok out) :
    out.numsOf "annual" = ((f1_prep df).dropnaOn "annual").numsOf "annual" := by
  unfold f1_process at h
  split at h
  · simp at h
  split at h
  case isFalse => simp at h
  case isTrue hA =>
    split at h
    next m hcy => simp at h
    next d3 hcy =>
      split at h
      next hno => simp at h
      next out2 hno =>
        simp at h
        subst h
        unfold normalizeOn at hno
        cases hm1 : listMin? (d3.numsOf "annual") with
        | none => rw [hm1] at hno; simp at hno
        | some minv2 =>
          cases hm2 : listMax? (d3.numsOf "annual") with
          | none => rw [hm1, hm2] at hno; simp at hno
          | some maxv2 =>
            rw [hm1, hm2] at hno
            simp at hno
            obtain ⟨hzero, hout⟩ := hno
            · skip
              have hcols3 : d3.cols = (f1_prep df).cols := by
                rw [cols_coerceYearStep hcy, cols_dropnaOn]
              have hA3 : containsCol d3.cols "annual" = true := by
                rw [hcols3]
                exact hA
              obtain ⟨i3, hi3⟩ := containsCol_some hA3
              have hidx3 : d3.colIdx "annual" = some i3 := hi3
              have hlen : ((d3.colCells "annual").map (scaleCell minv2 maxv2)).length
                  = d3.rows.length := by
                rw [List.length_map, length_colCells hidx3]
              have h1 : out2.numsOf "annual" = d3.numsOf "annual" := by
                rw [← hout]
                exact numsOf_setCol_ne hidx3 (by decide) hlen
              rw [h1, numsOf_coerceYearStep hcy (by decide)]

/-- Witness for the amended C9 at the descending-years table. -/
theorem f1_output_preserves_input_order_witness :
    exDescYearsOut.numsOf "annual" =
      ((f1_prep exDescYears).dropnaOn "annual").numsOf "annual" :=
  f1_output_preserves_input_order exDescYears exDescYearsOut (by decide)

/-- C10.  Called with no URL list, as the application invokes it,
fetch_f4_data consults the network for nothing (the result is identical for
every network), it computes its result directly from the local fallback file
when that file is readable, and it returns the error result None exactly when
the file is absent or unreadable. -/
theorem f4_no_urls_local_only (net net2 : String → Except Unit String)
    (localFile : Option (Except Unit String)) :
    fetch_f4_data [] net localFile = fetch_f4_data [] net2 localFile
    ∧ fetch_f4_data [] net localFile =
        (match localFile with
         | some (Except.ok txt) => (f4_process (readCsvComma txt), [])
         | some (Except.error _) => (PipeResult.errNone, [diagF4ReadFail, diagF4Upload])
         | none => (PipeResult.errNone, [diagF4ReadFail, diagF4Upload])) := by
  constructor
  · rfl
  · cases localFile with
    | none => rfl
    | some lf =>
      cases lf with
      | ok txt => rfl
      | error u => rfl
